import Mathlib

/-!
Shallow embedding of the Block Coordinator
(src/libs/ledger/src/chain/block_coordinator.cpp).

Each state handler of the coordinator's state machine is translated into a
Lean function from the coordinator's mutable state (`Coord`) and a per-tick
snapshot of the external collaborators (`Env`) to an optional result: the
updated coordinator state together with the list of observable calls made to
the collaborators (`Event`s).  A result of `none` models undefined behaviour
in the C++ source: the dereference of an unset `current_block_` / `next_block_`
shared pointer, or reading past the end of the ancestor path (the source
guards these only with `assert`, which is compiled out in release builds).

Collaborators (chain store, storage unit, execution manager, packer, miner,
sink, status cache) are modelled as oracle fields of `Env`: within one tick
the handler observes a fixed snapshot of their answers, matching the
single-threaded cooperative model of the source.  Logging, the periodic
notifiers (`Poll`/`Reset`, rate limiting only) and the debug-only reads of
`LastCommitHash` are omitted: they have no effect on control flow other than
dereferencing the block pointers, which is modelled where it occurs.

Machine integers: `block_number` is `uint64_t` in the source; wrap-around of
`previous->body.block_number + 1` is not modelled (Nat addition).  The C++
expression `1u << log2_num_lanes` is modelled as the Nat shift
`1 <<< log2_num_lanes` (for `log2_num_lanes < 32` the two agree; larger
values are undefined behaviour in the source).
-/

namespace Coordinator

/-- Coordinator state enumeration (block_coordinator.hpp via the spec §3 and
the handler registrations at block_coordinator.cpp:79-92). -/
inductive CState where
  | RELOAD_STATE
  | SYNCHRONIZING
  | SYNCHRONIZED
  | PRE_EXEC_BLOCK_VALIDATION
  | WAIT_FOR_TRANSACTIONS
  | SCHEDULE_BLOCK_EXECUTION
  | WAIT_FOR_EXECUTION
  | POST_EXEC_BLOCK_VALIDATION
  | PACK_NEW_BLOCK
  | EXECUTE_NEW_BLOCK
  | WAIT_FOR_NEW_BLOCK_EXECUTION
  | PROOF_SEARCH
  | TRANSMIT_BLOCK
  | RESET
deriving DecidableEq, Repr

/-- Digests are opaque byte strings (32 bytes for block/merkle hashes). -/
abbrev Digest := List Nat

/-- Identities are opaque byte strings (64 bytes). -/
abbrev Identity := List Nat

/-- Modelled from the spec: `GENESIS_DIGEST` is declared in
ledger/chain/constants.hpp, which is not under src/.  §3: a designated
sentinel digest marking the absent predecessor. -/
def GENESIS_DIGEST : Digest := List.replicate 32 0

/-- Modelled from the spec: `GENESIS_MERKLE_ROOT` is declared in
ledger/chain/constants.hpp, which is not under src/.  §3: the empty-state
Merkle root corresponding to genesis. -/
def GENESIS_MERKLE_ROOT : Digest := List.replicate 32 0

/-- A transaction layout as consumed by the coordinator: the source only
reads `tx.transaction_hash` from the slices. -/
structure TransactionLayout where
  transaction_hash : Digest
deriving DecidableEq, Repr

/-- A slice is an ordered sequence of transaction layouts. -/
abbrev Slice := List TransactionLayout

/-- PoW proof: a target (set by `SetTarget`) and a nonce (found by the
miner). -/
structure Proof where
  target : Nat
  nonce : Nat
deriving DecidableEq, Repr

/-- Block body fields read by the coordinator (spec §3; block.hpp is not
under src/ but every field below is used by name in block_coordinator.cpp). -/
structure BlockBody where
  hash : Digest
  previous_hash : Digest
  block_number : Nat
  miner : Identity
  merkle_hash : Digest
  log2_num_lanes : Nat
  slices : List Slice
deriving DecidableEq, Repr

/-- A block: a body plus the PoW proof. -/
structure Block where
  body : BlockBody
  proof : Proof
deriving DecidableEq, Repr

/-- ExecutionManagerInterface::ScheduleStatus (per spec §6; the interface
header is not under src/, only the manager class header). -/
inductive ScheduleStatus where
  | SCHEDULED
  | NOT_STARTED
  | ALREADY_RUNNING
  | NO_PARENT_BLOCK
  | UNABLE_TO_PLAN
deriving DecidableEq, Repr

/-- ExecutionManagerInterface::State (per spec §6). -/
inductive ExecutionState where
  | IDLE
  | ACTIVE
  | TRANSACTIONS_UNAVAILABLE
  | EXECUTION_ABORTED
  | EXECUTION_FAILED
deriving DecidableEq, Repr

/-- The coordinator-internal execution status summary. -/
inductive ExecutionStatus where
  | IDLE
  | RUNNING
  | STALLED
  | ERROR
deriving DecidableEq, Repr

/-- Modelled from the spec: `BlockStatus` is declared in main_chain.hpp,
which is not under src/.  §6: `AddBlock(Block) → {ADDED, DUPLICATE,
INVALID, …}`. -/
inductive BlockStatus where
  | ADDED
  | DUPLICATE
  | INVALID
deriving DecidableEq, Repr

instance : DecidableEq (Except Unit BlockStatus) := fun a b =>
  match a, b with
  | Except.error x, Except.error y => isTrue (by cases x; cases y; rfl)
  | Except.ok x, Except.ok y =>
    if h : x = y then isTrue (by rw [h]) else isFalse (by simp [h])
  | Except.error _, Except.ok _ => isFalse (by simp)
  | Except.ok _, Except.error _ => isFalse (by simp)

/-- Coordinator configuration (constructor arguments and flags). -/
structure Params where
  num_lanes : Nat
  num_slices : Nat
  block_difficulty : Nat
  block_period : Nat
  mining : Bool
  mining_enabled : Bool
  identity : Identity
deriving DecidableEq, Repr

/-- The coordinator's mutable state: the machine state plus the transient
block references and progress data (spec §3, members of BlockCoordinator). -/
structure Coord where
  state : CState
  current_block : Option Block
  next_block : Option Block
  pending_txs : Option (List Digest)
  last_executed_block : Digest
  next_block_time : Nat
  stall_count : Nat
deriving DecidableEq, Repr

/-- Observable calls a handler makes to the collaborators during one tick.
`revertToHash` records the arguments together with the result the storage
unit returned; `delay` records a `StateMachine::Delay` hint in ms. -/
inductive Event where
  | removeBlock (h : Digest)
  | setLastProcessedBlock (h : Digest)
  | revertToHash (h : Digest) (n : Nat) (ok : Bool)
  | commit (n : Nat)
  | txExecuted (h : Digest)
  | executeBlock (h : Digest)
  | onBlock (b : Block)
  | delay (ms : Nat)
deriving DecidableEq, Repr

/-- Per-tick snapshot of the collaborators' behaviour.  Each field answers
the calls the handlers may make during a single tick. -/
structure Env where
  /-- chain.GetHeaviestBlock(); `none` models a null BlockPtr. -/
  heaviestBlock : Option Block
  /-- chain.GetHeaviestBlockHash(). -/
  heaviestHash : Digest
  /-- chain.GetBlock(digest). -/
  getBlock : Digest → Option Block
  /-- chain.GetPathToCommonAncestor(out, frm, dst); `none` models failure. -/
  pathToCommonAncestor : Digest → Digest → Option (List Block)
  /-- execution_manager.LastProcessedBlock(). -/
  lastProcessedBlock : Digest
  /-- storage_unit.CurrentHash(). -/
  currentHash : Digest
  /-- storage_unit.RevertToHash(hash, block_number). -/
  revertToHash : Digest → Nat → Bool
  /-- storage_unit.HashExists(hash, block_number). -/
  hashExists : Digest → Nat → Bool
  /-- storage_unit.HasTransaction(digest). -/
  hasTransaction : Digest → Bool
  /-- execution_manager.Execute(body) scheduling verdict. -/
  executeResult : ScheduleStatus
  /-- execution_manager.GetState(). -/
  execState : ExecutionState
  /-- block_packer.GenerateBlock(next_block, ...); `none` models a thrown
  exception, `some` the filled-in block. -/
  generateBlock : Block → Option Block
  /-- miner.Mine(block, budget); `some nonce` on success within budget. -/
  mineNonce : Block → Nat → Option Nat
  /-- Block::UpdateDigest(): the hash recomputed from the body. -/
  hashOfBody : BlockBody → Digest
  /-- chain.AddBlock(block); `Except.error` models a thrown exception. -/
  addBlock : Block → Except Unit BlockStatus
  /-- Clock::now(). -/
  now : Nat

/-- The `if (!current_block_) current_block_ = chain_.GetHeaviestBlock();`
pattern at the head of OnReloadState and OnSynchronizing. -/
def ensureCurrent (c : Coord) (e : Env) : Option Block :=
  match c.current_block with
  | some b => some b
  | none => e.heaviestBlock

/-- UpdateTxStatus (block_coordinator.cpp:836-845): the transaction digests
of every slice, in iteration order. -/
def blockTxs (b : Block) : List Digest :=
  (b.body.slices.map (fun s => s.map (fun tx => tx.transaction_hash))).flatten

/-- Insertion into the `std::unordered_set` of pending transactions: a
no-op when the digest is already present. -/
def txInsert (s : List Digest) (h : Digest) : List Digest :=
  if h ∈ s then s else s ++ [h]

/-- The population loop of OnWaitForTransactions
(block_coordinator.cpp:424-430): insert the hash of every transaction of
every slice into the pending set. -/
def collectTxs (b : Block) : List Digest :=
  b.body.slices.foldl (fun acc s => s.foldl (fun acc tx => txInsert acc tx.transaction_hash) acc) []

/-- BlockCoordinator::OnReloadState (block_coordinator.cpp:135-166). -/
def onReloadState (_P : Params) (c : Coord) (e : Env) : Option (Coord × List Event) :=
  match ensureCurrent c e with
  | none => none
  | some cb =>
    if GENESIS_DIGEST ≠ cb.body.previous_hash then
      if e.revertToHash cb.body.merkle_hash cb.body.block_number then
        some ({ c with state := CState.RESET, current_block := some cb,
                       last_executed_block := cb.body.hash },
              [Event.revertToHash cb.body.merkle_hash cb.body.block_number true,
               Event.setLastProcessedBlock cb.body.hash])
      else
        some ({ c with state := CState.RESET, current_block := some cb },
              [Event.revertToHash cb.body.merkle_hash cb.body.block_number false])
    else
      some ({ c with state := CState.RESET, current_block := some cb }, [])

/-- BlockCoordinator::OnSynchronizing (block_coordinator.cpp:168-302).
The reversed-iterator reads `common_parent = *crbegin; next = *(crbegin+1)`
are modelled by matching on the reversed path; a path of fewer than two
blocks makes the second read undefined (`none`), mirroring the
release-build behaviour where `assert(blocks.size() >= 2)` is compiled
out. -/
def onSynchronizing (_P : Params) (c : Coord) (e : Env) : Option (Coord × List Event) :=
  match ensureCurrent c e with
  | none => none
  | some cb =>
    let current_hash := cb.body.hash
    let previous_hash := cb.body.previous_hash
    if GENESIS_DIGEST = e.lastProcessedBlock then
      if GENESIS_DIGEST = previous_hash then
        some ({ c with state := CState.PRE_EXEC_BLOCK_VALIDATION,
                       current_block := some cb }, [])
      else
        match e.getBlock previous_hash with
        | none => some ({ c with state := CState.RESET, current_block := some cb }, [])
        | some previous_block =>
          some ({ c with state := CState.SYNCHRONIZING,
                         current_block := some previous_block }, [])
    else if current_hash = e.lastProcessedBlock then
      some ({ c with state := CState.SYNCHRONIZED, current_block := some cb }, [])
    else
      match e.pathToCommonAncestor current_hash e.lastProcessedBlock with
      | none => some ({ c with state := CState.RESET, current_block := some cb }, [])
      | some blocks =>
        match blocks.reverse with
        | common_parent :: next_block :: _ =>
          if ¬ e.hashExists common_parent.body.merkle_hash common_parent.body.block_number then
            some ({ c with state := CState.RESET, current_block := some cb },
                  [Event.setLastProcessedBlock GENESIS_DIGEST,
                   Event.revertToHash GENESIS_MERKLE_ROOT 0
                     (e.revertToHash GENESIS_MERKLE_ROOT 0)])
          else if e.revertToHash common_parent.body.merkle_hash common_parent.body.block_number then
            some ({ c with state := CState.PRE_EXEC_BLOCK_VALIDATION,
                           current_block := some next_block },
                  [Event.revertToHash common_parent.body.merkle_hash
                     common_parent.body.block_number true])
          else
            some ({ c with state := CState.RESET, current_block := some cb },
                  [Event.revertToHash common_parent.body.merkle_hash
                     common_parent.body.block_number false])
        | _ => none

/-- BlockCoordinator::OnSynchronized (block_coordinator.cpp:304-342).  The
`previous` state argument only gates a log message and is omitted.  The
fresh `next_block` is default-constructed and then assigned previous hash,
number, miner and proof target. -/
def onSynchronized (P : Params) (c : Coord) (e : Env) : Option (Coord × List Event) :=
  match c.current_block with
  | none => none
  | some cb =>
    if e.heaviestHash ≠ cb.body.hash then
      some ({ c with state := CState.RESET }, [])
    else if P.mining && P.mining_enabled && decide (c.next_block_time ≤ e.now) then
      let nb : Block :=
        { body := { hash := [], previous_hash := cb.body.hash,
                    block_number := cb.body.block_number + 1,
                    miner := P.identity, merkle_hash := [],
                    log2_num_lanes := 0, slices := [] },
          proof := { target := P.block_difficulty, nonce := 0 } }
      some ({ c with state := CState.PACK_NEW_BLOCK, next_block := some nb,
                     current_block := none }, [])
    else
      some ({ c with state := CState.SYNCHRONIZED }, [])

/-- BlockCoordinator::OnPreExecBlockValidation (block_coordinator.cpp:344-413). -/
def onPreExecBlockValidation (P : Params) (c : Coord) (e : Env) : Option (Coord × List Event) :=
  match c.current_block with
  | none => none
  | some cb =>
    let is_genesis := cb.body.previous_hash = GENESIS_DIGEST
    let removed : Option (Coord × List Event) :=
      some ({ c with state := CState.RESET }, [Event.removeBlock cb.body.hash])
    let digest_check : Option (Coord × List Event) :=
      if cb.body.previous_hash.length ≠ 32 then removed
      else some ({ c with state := CState.WAIT_FOR_TRANSACTIONS }, [])
    if is_genesis then
      digest_check
    else
      match e.getBlock cb.body.previous_hash with
      | none => removed
      | some previous =>
        if previous.body.block_number + 1 ≠ cb.body.block_number then removed
        else if cb.body.miner.length ≠ 64 then removed
        else if P.num_lanes ≠ 1 <<< cb.body.log2_num_lanes then removed
        else if P.num_slices ≠ cb.body.slices.length then removed
        else digest_check

/-- BlockCoordinator::OnWaitForTransactions (block_coordinator.cpp:415-473). -/
def onWaitForTransactions (_P : Params) (c : Coord) (e : Env) : Option (Coord × List Event) :=
  match c.current_block with
  | none => none
  | some cb =>
    let base :=
      match c.pending_txs with
      | some s => s
      | none => collectTxs cb
    let remaining := base.filter (fun h => ! e.hasTransaction h)
    if remaining.isEmpty then
      some ({ c with pending_txs := none,
                     state := CState.SCHEDULE_BLOCK_EXECUTION }, [])
    else
      some ({ c with pending_txs := some remaining,
                     state := CState.WAIT_FOR_TRANSACTIONS }, [Event.delay 200])

/-- BlockCoordinator::OnScheduleBlockExecution (block_coordinator.cpp:475-488)
via ScheduleCurrentBlock / ScheduleBlock (739-793).  ScheduleCurrentBlock
checks the pointer before dereferencing, so an unset `current_block` logs
an error and fails (→ RESET) rather than crashing. -/
def onScheduleBlockExecution (_P : Params) (c : Coord) (e : Env) : Option (Coord × List Event) :=
  match c.current_block with
  | none => some ({ c with state := CState.RESET }, [])
  | some cb =>
    if e.executeResult = ScheduleStatus.SCHEDULED then
      some ({ c with state := CState.WAIT_FOR_EXECUTION }, [Event.executeBlock cb.body.hash])
    else
      some ({ c with state := CState.RESET }, [Event.executeBlock cb.body.hash])

/-- BlockCoordinator::QueryExecutorStatus (block_coordinator.cpp:795-829). -/
def queryExecutorStatus : ExecutionState → ExecutionStatus
  | ExecutionState.IDLE => ExecutionStatus.IDLE
  | ExecutionState.ACTIVE => ExecutionStatus.RUNNING
  | ExecutionState.TRANSACTIONS_UNAVAILABLE => ExecutionStatus.STALLED
  | ExecutionState.EXECUTION_ABORTED => ExecutionStatus.ERROR
  | ExecutionState.EXECUTION_FAILED => ExecutionStatus.ERROR

/-- BlockCoordinator::OnWaitForExecution (block_coordinator.cpp:490-521).
The RUNNING branch's rate-limited log dereferences `current_block_`
(line 507); the dereference is modelled unconditionally. -/
def onWaitForExecution (_P : Params) (c : Coord) (e : Env) : Option (Coord × List Event) :=
  match queryExecutorStatus e.execState with
  | ExecutionStatus.IDLE =>
    some ({ c with state := CState.POST_EXEC_BLOCK_VALIDATION }, [])
  | ExecutionStatus.RUNNING =>
    match c.current_block with
    | none => none
    | some _ => some ({ c with state := CState.WAIT_FOR_EXECUTION }, [Event.delay 20])
  | ExecutionStatus.STALLED => some ({ c with state := CState.RESET }, [])
  | ExecutionStatus.ERROR => some ({ c with state := CState.RESET }, [])

/-- BlockCoordinator::OnPostExecBlockValidation (block_coordinator.cpp:523-593). -/
def onPostExecBlockValidation (_P : Params) (c : Coord) (e : Env) : Option (Coord × List Event) :=
  match c.current_block with
  | none => none
  | some cb =>
    let state_hash := e.currentHash
    if GENESIS_DIGEST ≠ cb.body.previous_hash ∧ state_hash ≠ cb.body.merkle_hash then
      let recovery : List Event :=
        match e.getBlock cb.body.previous_hash with
        | some previous_block =>
          if e.revertToHash previous_block.body.merkle_hash previous_block.body.block_number then
            [Event.revertToHash previous_block.body.merkle_hash
               previous_block.body.block_number true,
             Event.setLastProcessedBlock previous_block.body.hash]
          else
            [Event.revertToHash previous_block.body.merkle_hash
               previous_block.body.block_number false,
             Event.revertToHash GENESIS_MERKLE_ROOT 0 (e.revertToHash GENESIS_MERKLE_ROOT 0),
             Event.setLastProcessedBlock GENESIS_DIGEST]
        | none =>
          [Event.revertToHash GENESIS_MERKLE_ROOT 0 (e.revertToHash GENESIS_MERKLE_ROOT 0),
           Event.setLastProcessedBlock GENESIS_DIGEST]
      some ({ c with state := CState.RESET },
            recovery ++ [Event.removeBlock cb.body.hash])
    else
      some ({ c with state := CState.RESET, last_executed_block := cb.body.hash },
            (blockTxs cb).map Event.txExecuted ++ [Event.commit cb.body.block_number])

/-- BlockCoordinator::OnPackNewBlock (block_coordinator.cpp:595-616).  A
packer exception (`generateBlock = none`) skips the next-block-time update
and falls through to RESET. -/
def onPackNewBlock (P : Params) (c : Coord) (e : Env) : Option (Coord × List Event) :=
  match c.next_block with
  | none => none
  | some nb =>
    match e.generateBlock nb with
    | none => some ({ c with state := CState.RESET }, [])
    | some nb2 =>
      some ({ c with state := CState.EXECUTE_NEW_BLOCK, next_block := some nb2,
                     next_block_time := e.now + P.block_period }, [])

/-- BlockCoordinator::OnExecuteNewBlock (block_coordinator.cpp:618-631) via
ScheduleNextBlock (756-770), which null-checks before dereferencing. -/
def onExecuteNewBlock (_P : Params) (c : Coord) (e : Env) : Option (Coord × List Event) :=
  match c.next_block with
  | none => some ({ c with state := CState.RESET }, [])
  | some nb =>
    if e.executeResult = ScheduleStatus.SCHEDULED then
      some ({ c with state := CState.WAIT_FOR_NEW_BLOCK_EXECUTION },
            [Event.executeBlock nb.body.hash])
    else
      some ({ c with state := CState.RESET }, [Event.executeBlock nb.body.hash])

/-- BlockCoordinator::OnWaitForNewBlockExecution (block_coordinator.cpp:633-672). -/
def onWaitForNewBlockExecution (_P : Params) (c : Coord) (e : Env) : Option (Coord × List Event) :=
  match queryExecutorStatus e.execState with
  | ExecutionStatus.IDLE =>
    match c.next_block with
    | none => none
    | some nb =>
      let nb2 := { nb with body.merkle_hash := e.currentHash }
      some ({ c with state := CState.PROOF_SEARCH, next_block := some nb2 },
            [Event.commit nb2.body.block_number])
  | ExecutionStatus.RUNNING =>
    match c.next_block with
    | none => none
    | some _ =>
      some ({ c with state := CState.WAIT_FOR_NEW_BLOCK_EXECUTION }, [Event.delay 20])
  | ExecutionStatus.STALLED => some ({ c with state := CState.RESET }, [])
  | ExecutionStatus.ERROR => some ({ c with state := CState.RESET }, [])

/-- BlockCoordinator::OnProofSearch (block_coordinator.cpp:674-694).
`Mine` mutates only the proof nonce; `UpdateDigest` recomputes
`body.hash` from the body. -/
def onProofSearch (_P : Params) (c : Coord) (e : Env) : Option (Coord × List Event) :=
  match c.next_block with
  | none => none
  | some nb =>
    match e.mineNonce nb 100 with
    | none => some ({ c with state := CState.PROOF_SEARCH }, [])
    | some nonce =>
      let nb1 := { nb with proof.nonce := nonce }
      let nb2 := { nb1 with body.hash := e.hashOfBody nb1.body }
      some ({ c with state := CState.TRANSMIT_BLOCK, next_block := some nb2 },
            [Event.setLastProcessedBlock nb2.body.hash])

/-- BlockCoordinator::OnTransmitBlock (block_coordinator.cpp:696-724). -/
def onTransmitBlock (_P : Params) (c : Coord) (e : Env) : Option (Coord × List Event) :=
  match c.next_block with
  | none => none
  | some nb =>
    match e.addBlock nb with
    | Except.error _ => some ({ c with state := CState.RESET }, [])
    | Except.ok st =>
      if st = BlockStatus.ADDED then
        some ({ c with state := CState.RESET, last_executed_block := nb.body.hash },
              (blockTxs nb).map Event.txExecuted ++ [Event.onBlock nb])
      else
        some ({ c with state := CState.RESET }, [])

/-- BlockCoordinator::OnReset (block_coordinator.cpp:726-737) with
UpdateNextBlockTime (831-834). -/
def onReset (P : Params) (c : Coord) (e : Env) : Option (Coord × List Event) :=
  some ({ c with state := CState.SYNCHRONIZING, current_block := none,
                 next_block := none, pending_txs := none, stall_count := 0,
                 next_block_time := e.now + P.block_period }, [])

/-- One tick of the state machine: dispatch to the handler registered for
the current state (block_coordinator.cpp:79-92) and adopt the state it
returns. -/
def tick (P : Params) (c : Coord) (e : Env) : Option (Coord × List Event) :=
  match c.state with
  | CState.RELOAD_STATE => onReloadState P c e
  | CState.SYNCHRONIZING => onSynchronizing P c e
  | CState.SYNCHRONIZED => onSynchronized P c e
  | CState.PRE_EXEC_BLOCK_VALIDATION => onPreExecBlockValidation P c e
  | CState.WAIT_FOR_TRANSACTIONS => onWaitForTransactions P c e
  | CState.SCHEDULE_BLOCK_EXECUTION => onScheduleBlockExecution P c e
  | CState.WAIT_FOR_EXECUTION => onWaitForExecution P c e
  | CState.POST_EXEC_BLOCK_VALIDATION => onPostExecBlockValidation P c e
  | CState.PACK_NEW_BLOCK => onPackNewBlock P c e
  | CState.EXECUTE_NEW_BLOCK => onExecuteNewBlock P c e
  | CState.WAIT_FOR_NEW_BLOCK_EXECUTION => onWaitForNewBlockExecution P c e
  | CState.PROOF_SEARCH => onProofSearch P c e
  | CState.TRANSMIT_BLOCK => onTransmitBlock P c e
  | CState.RESET => onReset P c e

/-- The coordinator as constructed (block_coordinator.cpp:52-76): machine
starts in RELOAD_STATE, `last_executed_block_` starts at GENESIS_DIGEST,
no blocks or pending transactions held. -/
def initCoord : Coord :=
  { state := CState.RELOAD_STATE, current_block := none, next_block := none,
    pending_txs := none, last_executed_block := GENESIS_DIGEST,
    next_block_time := 0, stall_count := 0 }

/-- The precondition of claim C10: the chain store always yields a heaviest
block. -/
def GoodEnv (e : Env) : Prop := e.heaviestBlock.isSome

/-- Reachability along defined (non-crashing) ticks whose environments
satisfy `GoodEnv`. -/
inductive Reach (P : Params) (start : Coord) : Coord → Prop where
  | refl : Reach P start start
  | step {b c : Coord} {e : Env} {evs : List Event} :
      Reach P start b → GoodEnv e → tick P b e = some (c, evs) → Reach P start c

/-- The base of the pending-transaction computation in
OnWaitForTransactions: the cached set when present, otherwise the digests
collected from the current block. -/
def pendingBase (c : Coord) (cb : Block) : List Digest :=
  match c.pending_txs with
  | some s => s
  | none => collectTxs cb

/-- The pending set after the removal loop of OnWaitForTransactions: all
digests the storage unit does not yet hold. -/
def remainingTxs (c : Coord) (e : Env) (cb : Block) : List Digest :=
  (pendingBase c cb).filter (fun h => ! e.hasTransaction h)

/-- The documented shape/continuity checks of OnPreExecBlockValidation whose
failure removes the block: missing previous block, discontinuous block
number, wrong miner-identity size, wrong lane count, wrong slice count
(all only for non-genesis predecessors), or a malformed previous-hash
digest. -/
def preExecRemovalCause (P : Params) (e : Env) (cb : Block) : Prop :=
  (cb.body.previous_hash ≠ GENESIS_DIGEST ∧
    (e.getBlock cb.body.previous_hash = none ∨
      ∃ previous, e.getBlock cb.body.previous_hash = some previous ∧
        (previous.body.block_number + 1 ≠ cb.body.block_number ∨
         cb.body.miner.length ≠ 64 ∨
         P.num_lanes ≠ 1 <<< cb.body.log2_num_lanes ∨
         P.num_slices ≠ cb.body.slices.length))) ∨
  cb.body.previous_hash.length ≠ 32

/-- The Merkle comparison of OnPostExecBlockValidation whose failure removes
the block. -/
def postExecRemovalCause (e : Env) (cb : Block) : Prop :=
  GENESIS_DIGEST ≠ cb.body.previous_hash ∧ e.currentHash ≠ cb.body.merkle_hash

/-- Modelled from the spec: ancestry over the chain store's `GetBlock` view
(main_chain.cpp is not under src/).  `ReachesBack g h a` holds when
following `previous_hash` links from the block with digest `h` reaches the
digest `a`. -/
inductive ReachesBack (g : Digest → Option Block) : Digest → Digest → Prop where
  | refl (h : Digest) : ReachesBack g h h
  | step {h a : Digest} (b : Block) :
      g h = some b → ReachesBack g b.body.previous_hash a → ReachesBack g h a

/-- Modelled from the spec: the §6 contract of
`chain.GetPathToCommonAncestor(out, frm, dst)` (main_chain.cpp is not under
src/): on success the output is a non-empty sequence whose first element is
the block at `frm` and whose last element is a common ancestor of `frm`
and `dst`.  Nothing in the contract requires two or more elements. -/
def PathContract (g : Digest → Option Block) (frm dst : Digest) (blocks : List Block) : Prop :=
  blocks ≠ [] ∧
  blocks.head?.map (fun b => b.body.hash) = some frm ∧
  ∃ anc, blocks.getLast? = some anc ∧
    ReachesBack g frm anc.body.hash ∧ ReachesBack g dst anc.body.hash

/-- The strengthened induction invariant behind claim C10: the borrowed
`current_block` reference is set in every state between SYNCHRONIZED and
POST_EXEC_BLOCK_VALIDATION, and the owned `next_block` candidate is set in
every producing state from PACK_NEW_BLOCK to TRANSMIT_BLOCK. -/
def BlockRefsInv (c : Coord) : Prop :=
  ((c.state = CState.SYNCHRONIZED ∨ c.state = CState.PRE_EXEC_BLOCK_VALIDATION ∨
    c.state = CState.WAIT_FOR_TRANSACTIONS ∨ c.state = CState.SCHEDULE_BLOCK_EXECUTION ∨
    c.state = CState.WAIT_FOR_EXECUTION ∨ c.state = CState.POST_EXEC_BLOCK_VALIDATION) →
      c.current_block.isSome = true) ∧
  ((c.state = CState.PACK_NEW_BLOCK ∨ c.state = CState.EXECUTE_NEW_BLOCK ∨
    c.state = CState.WAIT_FOR_NEW_BLOCK_EXECUTION ∨ c.state = CState.PROOF_SEARCH ∨
    c.state = CState.TRANSMIT_BLOCK) → c.next_block.isSome = true)

/-! Concrete fixtures for witnesses and counterexamples. -/

/-- A concrete 32-byte digest whose first byte is `k`. -/
def dByte (k : Nat) : Digest := k :: List.replicate 31 0

def dA : Digest := dByte 1
def dB : Digest := dByte 2
def mA : Digest := dByte 10
def mB : Digest := dByte 11
def idA : Identity := List.replicate 64 7

def txT1 : TransactionLayout := { transaction_hash := dByte 21 }
def txT2 : TransactionLayout := { transaction_hash := dByte 22 }

/-- A genesis-child block: two slices, lane exponent two, declared
post-execution Merkle root `mA`. -/
def blkA : Block :=
  { body := { hash := dA, previous_hash := GENESIS_DIGEST, block_number := 1,
              miner := idA, merkle_hash := mA, log2_num_lanes := 2,
              slices := [[txT1], [txT2]] },
    proof := { target := 0, nonce := 0 } }

/-- A child of `blkA` with declared Merkle root `mB`. -/
def blkB : Block :=
  { body := { hash := dB, previous_hash := dA, block_number := 2,
              miner := idA, merkle_hash := mB, log2_num_lanes := 2,
              slices := [[], []] },
    proof := { target := 0, nonce := 0 } }

/-- Configuration matching the fixture blocks: four lanes, two slices. -/
def pDefault : Params :=
  { num_lanes := 4, num_slices := 2, block_difficulty := 8, block_period := 100,
    mining := false, mining_enabled := false, identity := idA }

/-- A benign collaborator snapshot; the individual scenarios override the
fields they exercise. -/
def envBase : Env :=
  { heaviestBlock := some blkA, heaviestHash := dA, getBlock := fun _ => none,
    pathToCommonAncestor := fun _ _ => none, lastProcessedBlock := GENESIS_DIGEST,
    currentHash := mA, revertToHash := fun _ _ => true, hashExists := fun _ _ => true,
    hasTransaction := fun _ => true, executeResult := ScheduleStatus.SCHEDULED,
    execState := ExecutionState.IDLE, generateBlock := fun b => some b,
    mineNonce := fun _ _ => none, hashOfBody := fun b => b.hash,
    addBlock := fun _ => Except.ok BlockStatus.ADDED, now := 0 }

/-- Storage reports `mB` as the current state hash, mismatching `blkA`'s
declared Merkle root `mA`. -/
def envMerkleMismatch : Env := { envBase with currentHash := mB }

/-- Coordinator about to run POST_EXEC_BLOCK_VALIDATION on `blkA`. -/
def cPostA : Coord :=
  { initCoord with state := CState.POST_EXEC_BLOCK_VALIDATION, current_block := some blkA }

/-- Coordinator about to run POST_EXEC_BLOCK_VALIDATION on `blkB`. -/
def cPostB : Coord :=
  { initCoord with state := CState.POST_EXEC_BLOCK_VALIDATION, current_block := some blkB }

/-- Storage agrees with `blkB`'s declared Merkle root; the chain knows
`blkA`. -/
def envMatchB : Env :=
  { envBase with
    currentHash := mB,
    getBlock := fun h => if h = dA then some blkA else none }

/-- `blkA` with a lane exponent of five (32 lanes) against a four-lane
configuration. -/
def blkBadLanes : Block :=
  { blkA with body.log2_num_lanes := 5 }

/-- Coordinator about to run PRE_EXEC_BLOCK_VALIDATION on `blkBadLanes`. -/
def cPreBadLanes : Coord :=
  { initCoord with state := CState.PRE_EXEC_BLOCK_VALIDATION,
                   current_block := some blkBadLanes }

/-- `blkB` with a truncated miner identity. -/
def blkBadMiner : Block :=
  { blkB with body.miner := List.replicate 10 7 }

/-- Coordinator about to run PRE_EXEC_BLOCK_VALIDATION on `blkBadMiner`. -/
def cPreBadMiner : Coord :=
  { initCoord with state := CState.PRE_EXEC_BLOCK_VALIDATION,
                   current_block := some blkBadMiner }

/-- Chain snapshot where `blkBadMiner`'s parent `blkA` is present. -/
def envParentA : Env :=
  { envBase with getBlock := fun h => if h = dA then some blkA else none }

/-- Coordinator synchronizing with `blkB` as current block. -/
def cSyncB : Coord :=
  { initCoord with state := CState.SYNCHRONIZING, current_block := some blkB }

/-- Snapshot where the executed chain is at `blkA`, the ancestor path from
`blkB` is `[blkB, blkA]`, the ancestor's state hash exists, but the storage
revert fails. -/
def envRevertFail : Env :=
  { envBase with
    lastProcessedBlock := dA,
    pathToCommonAncestor := fun _ _ => some [blkB, blkA],
    revertToHash := fun _ _ => false }

/-- The chain store's `GetBlock` view holding `blkA` and its child `blkB`. -/
def gChainAB : Digest → Option Block :=
  fun h => if h = dA then some blkA else if h = dB then some blkB else none

/-- Coordinator synchronizing with `blkA` as current block. -/
def cSyncA : Coord :=
  { initCoord with state := CState.SYNCHRONIZING, current_block := some blkA }

/-- Snapshot where the last processed block `blkB` is a descendant of the
current block `blkA`, so `blkA` itself is the common ancestor and the
contract-conforming path is the singleton `[blkA]`. -/
def envSingletonPath : Env :=
  { envBase with
    lastProcessedBlock := dB, getBlock := gChainAB,
    pathToCommonAncestor := fun _ _ => some [blkA] }

/-- Coordinator waiting for the transactions of `blkA` with two digests
outstanding. -/
def cWaitTx : Coord :=
  { initCoord with state := CState.WAIT_FOR_TRANSACTIONS, current_block := some blkA,
                   pending_txs := some [dByte 21, dByte 22] }

/-- Storage holds the transaction `dByte 21` but not `dByte 22`. -/
def envHalfTx : Env :=
  { envBase with hasTransaction := fun h => h = dByte 21 }

/-- Coordinator about to transmit the candidate block `blkB`. -/
def cTransmitB : Coord :=
  { initCoord with state := CState.TRANSMIT_BLOCK, next_block := some blkB }

/-- The chain store rejects the transmitted block as INVALID. -/
def envAddInvalid : Env :=
  { envBase with addBlock := fun _ => Except.ok BlockStatus.INVALID }

/-- `blkB` with a lane exponent of five (32 lanes) against a four-lane
configuration; its predecessor is `blkA`, not genesis. -/
def blkBLanes : Block :=
  { blkB with body.log2_num_lanes := 5 }

/-- Coordinator about to run PRE_EXEC_BLOCK_VALIDATION on `blkBLanes`. -/
def cPreBLanes : Coord :=
  { initCoord with state := CState.PRE_EXEC_BLOCK_VALIDATION,
                   current_block := some blkBLanes }

/-- Snapshot where the executed chain is at `blkA`, the ancestor path from
`blkB` is `[blkB, blkA]` and both the existence check and the revert
succeed. -/
def envPathOK : Env :=
  { envBase with
    lastProcessedBlock := dA,
    pathToCommonAncestor := fun _ _ => some [blkB, blkA] }

/-- The result of validating `blkB` against a matching storage hash. -/
def cPostBRes : Coord :=
  { cPostB with state := CState.RESET, last_executed_block := dB }

/-- Configuration after the first tick (RELOAD_STATE on a fresh node whose
heaviest block is the genesis child `blkA`). -/
def cW1 : Coord :=
  { initCoord with state := CState.RESET, current_block := some blkA }

/-- Configuration after the second tick (RESET). -/
def cW2 : Coord :=
  { initCoord with state := CState.SYNCHRONIZING, next_block_time := 100 }

/-- Configuration after the third tick (SYNCHRONIZING picks up `blkA`). -/
def cW3 : Coord :=
  { initCoord with state := CState.PRE_EXEC_BLOCK_VALIDATION,
                   current_block := some blkA, next_block_time := 100 }

end Coordinator

namespace Coordinator

/-- C8: After every execution of the RESET handler, regardless of the state
it was entered from, `current_block`, `next_block` and `pending_txs` are
unset, `stall_count` is 0, `next_block_time` equals now + block_period, and
the next state is SYNCHRONIZING. -/
theorem c8_reset_clears_all (P : Params) (c : Coord) (e : Env) :
    onReset P c e =
      some ({ c with state := CState.SYNCHRONIZING, current_block := none,
                     next_block := none, pending_txs := none, stall_count := 0,
                     next_block_time := e.now + P.block_period }, []) := rfl

/-- C2 (amended): POST_EXEC_BLOCK_VALIDATION skips the Merkle comparison
entirely for a block whose `previous_hash` is GENESIS_DIGEST: even when the
declared `merkle_hash` differs from `storage.CurrentHash()`, the success
path runs (transaction statuses updated, `Commit`, `last_executed_block`
set to the block's hash) and the handler returns RESET.  Only a block whose
`previous_hash` is not GENESIS_DIGEST is treated as invalid on a Merkle
mismatch: it is removed via `chain.RemoveBlock`, `last_executed_block` is
left unchanged, and the handler returns RESET (reaching SYNCHRONIZING on
the following tick). -/
theorem c2_postexec_genesis_skips_merkle_check :
    (∀ (P : Params) (c : Coord) (e : Env) (cb : Block),
        c.current_block = some cb → cb.body.previous_hash = GENESIS_DIGEST →
        onPostExecBlockValidation P c e =
          some ({ c with state := CState.RESET, last_executed_block := cb.body.hash },
                (blockTxs cb).map Event.txExecuted ++ [Event.commit cb.body.block_number])) ∧
    (∀ (P : Params) (c : Coord) (e : Env) (cb : Block),
        c.current_block = some cb → cb.body.previous_hash ≠ GENESIS_DIGEST →
        e.currentHash ≠ cb.body.merkle_hash →
        ∃ c2 evs, onPostExecBlockValidation P c e = some (c2, evs) ∧
          c2.state = CState.RESET ∧ c2.last_executed_block = c.last_executed_block ∧
          Event.removeBlock cb.body.hash ∈ evs) := by
  constructor
  · intro P c e cb hcb hgen
    simp only [onPostExecBlockValidation, hcb]
    rw [if_neg]
    intro hcontra
    exact hcontra.1 hgen.symm
  · intro P c e cb hcb hgen hm
    simp only [onPostExecBlockValidation, hcb]
    rw [if_pos ⟨fun h => hgen h.symm, hm⟩]
    exact ⟨_, _, rfl, rfl, rfl, by simp⟩

/-- C2 counterexample: `blkA` has `previous_hash` = GENESIS_DIGEST and its
declared Merkle root `mA` differs from the storage hash `mB` after
execution, yet POST_EXEC_BLOCK_VALIDATION runs the success path: no
`RemoveBlock` call is made, the state is committed, `last_executed_block`
becomes `blkA`'s hash (not GENESIS), and the handler returns RESET (not
SYNCHRONIZING). -/
theorem c2_counterexample :
    envMerkleMismatch.currentHash ≠ blkA.body.merkle_hash ∧
    blkA.body.previous_hash = GENESIS_DIGEST ∧
    onPostExecBlockValidation pDefault cPostA envMerkleMismatch =
      some ({ cPostA with state := CState.RESET, last_executed_block := blkA.body.hash },
            [Event.txExecuted (dByte 21), Event.txExecuted (dByte 22), Event.commit 1]) ∧
    Event.removeBlock blkA.body.hash ∉
      [Event.txExecuted (dByte 21), Event.txExecuted (dByte 22), Event.commit 1] ∧
    blkA.body.hash ≠ GENESIS_DIGEST := by
  refine ⟨by decide, by decide, by decide, by decide, by decide⟩

/-- C2 witness: the amended claim instantiated on `blkA` under the
mismatching storage snapshot. -/
theorem c2_witness :
    onPostExecBlockValidation pDefault cPostA envMerkleMismatch =
      some ({ cPostA with state := CState.RESET, last_executed_block := blkA.body.hash },
            (blockTxs blkA).map Event.txExecuted ++ [Event.commit blkA.body.block_number]) :=
  c2_postexec_genesis_skips_merkle_check.1 pDefault cPostA envMerkleMismatch blkA rfl rfl

/-- C3 (amended): the lane-count check `num_lanes = 1 << log2_num_lanes` of
PRE_EXEC_BLOCK_VALIDATION applies only to blocks whose `previous_hash` is
not GENESIS_DIGEST: such a block whose earlier checks pass (previous block
found, continuous block number, 64-byte miner identity) and whose lane
count mismatches is removed via `chain.RemoveBlock` and the handler returns
RESET.  A block whose `previous_hash` is GENESIS_DIGEST skips the lane
check (and every other non-genesis check) and proceeds to
WAIT_FOR_TRANSACTIONS. -/
theorem c3_lane_check_only_non_genesis :
    (∀ (P : Params) (c : Coord) (e : Env) (cb previous : Block),
        c.current_block = some cb → cb.body.previous_hash ≠ GENESIS_DIGEST →
        e.getBlock cb.body.previous_hash = some previous →
        previous.body.block_number + 1 = cb.body.block_number →
        cb.body.miner.length = 64 →
        P.num_lanes ≠ 1 <<< cb.body.log2_num_lanes →
        onPreExecBlockValidation P c e =
          some ({ c with state := CState.RESET }, [Event.removeBlock cb.body.hash])) ∧
    (∀ (P : Params) (c : Coord) (e : Env) (cb : Block),
        c.current_block = some cb → cb.body.previous_hash = GENESIS_DIGEST →
        onPreExecBlockValidation P c e =
          some ({ c with state := CState.WAIT_FOR_TRANSACTIONS }, [])) := by
  constructor
  · intro P c e cb previous hcb hgen hprev hnum hminer hlanes
    simp only [onPreExecBlockValidation, hcb, hprev]
    rw [if_neg hgen, if_neg (not_not_intro hnum), if_neg (not_not_intro hminer),
        if_pos hlanes]
  · intro P c e cb hcb hgen
    have hlen : cb.body.previous_hash.length = 32 := by
      rw [hgen]; simp [GENESIS_DIGEST]
    simp only [onPreExecBlockValidation, hcb]
    rw [if_pos hgen, if_neg (not_not_intro hlen)]

/-- C3 counterexample: `blkBadLanes` has `previous_hash` = GENESIS_DIGEST
and a lane exponent of 5 (32 lanes) against the configured 4 lanes, yet
PRE_EXEC_BLOCK_VALIDATION accepts it: no `RemoveBlock` call, next state
WAIT_FOR_TRANSACTIONS rather than RESET. -/
theorem c3_counterexample :
    pDefault.num_lanes ≠ 1 <<< blkBadLanes.body.log2_num_lanes ∧
    blkBadLanes.body.previous_hash = GENESIS_DIGEST ∧
    onPreExecBlockValidation pDefault cPreBadLanes envBase =
      some ({ cPreBadLanes with state := CState.WAIT_FOR_TRANSACTIONS }, []) := by
  refine ⟨by decide, by decide, by decide⟩

/-- C3 witness: the amended claim instantiated on the non-genesis block
`blkBLanes` (32 declared lanes against 4 configured), which is removed. -/
theorem c3_witness :
    onPreExecBlockValidation pDefault cPreBLanes envParentA =
      some ({ cPreBLanes with state := CState.RESET },
            [Event.removeBlock blkBLanes.body.hash]) :=
  c3_lane_check_only_non_genesis.1 pDefault cPreBLanes envParentA blkBLanes blkA
    rfl (by decide) (by decide) (by decide) (by decide) (by decide)

/-- C5 (amended): in SYNCHRONIZING, when the last processed block is
neither GENESIS nor the current hash and `GetPathToCommonAncestor`
succeeds with ancestor `anc` and penultimate element `nxt`: if
`storage.HashExists(anc.merkle_hash, anc.block_number)` is false the
coordinator performs a hard reset (SetLastProcessedBlock(GENESIS),
RevertToHash(GENESIS_MERKLE_ROOT, 0)) and goes to RESET; otherwise it
calls `storage.RevertToHash(anc.merkle_hash, anc.block_number)` and, if
that revert succeeds, sets `current_block` to `nxt` and goes to
PRE_EXEC_BLOCK_VALIDATION — but if the revert fails it goes to RESET with
`current_block` unchanged. -/
theorem c5_sync_common_ancestor (P : Params) (c : Coord) (e : Env)
    (cb anc nxt : Block) (blocks rest : List Block)
    (hcb : c.current_block = some cb)
    (hlpb : GENESIS_DIGEST ≠ e.lastProcessedBlock)
    (hne : cb.body.hash ≠ e.lastProcessedBlock)
    (hpath : e.pathToCommonAncestor cb.body.hash e.lastProcessedBlock = some blocks)
    (hrev : blocks.reverse = anc :: nxt :: rest) :
    (e.hashExists anc.body.merkle_hash anc.body.block_number = false →
      onSynchronizing P c e =
        some ({ c with state := CState.RESET, current_block := some cb },
              [Event.setLastProcessedBlock GENESIS_DIGEST,
               Event.revertToHash GENESIS_MERKLE_ROOT 0
                 (e.revertToHash GENESIS_MERKLE_ROOT 0)])) ∧
    (e.hashExists anc.body.merkle_hash anc.body.block_number = true →
      e.revertToHash anc.body.merkle_hash anc.body.block_number = true →
      onSynchronizing P c e =
        some ({ c with state := CState.PRE_EXEC_BLOCK_VALIDATION,
                       current_block := some nxt },
              [Event.revertToHash anc.body.merkle_hash anc.body.block_number true])) ∧
    (e.hashExists anc.body.merkle_hash anc.body.block_number = true →
      e.revertToHash anc.body.merkle_hash anc.body.block_number = false →
      onSynchronizing P c e =
        some ({ c with state := CState.RESET, current_block := some cb },
              [Event.revertToHash anc.body.merkle_hash anc.body.block_number false])) := by
  have hens : ensureCurrent c e = some cb := by simp [ensureCurrent, hcb]
  refine ⟨?_, ?_, ?_⟩
  · intro hex
    simp only [onSynchronizing, hens]
    rw [if_neg hlpb, if_neg hne, hpath]
    simp only [hrev]
    rw [if_pos (by simp [hex])]
  · intro hex hrv
    simp only [onSynchronizing, hens]
    rw [if_neg hlpb, if_neg hne, hpath]
    simp only [hrev]
    rw [if_neg (by simp [hex]), if_pos hrv]
  · intro hex hrv
    simp only [onSynchronizing, hens]
    rw [if_neg hlpb, if_neg hne, hpath]
    simp only [hrev]
    rw [if_neg (by simp [hex]), if_neg (by simp [hrv])]

/-- C5 counterexample: the ancestor's state hash exists but
`storage.RevertToHash` fails; the handler returns RESET with
`current_block` unchanged, not PRE_EXEC_BLOCK_VALIDATION with the
penultimate block, as the claim states. -/
theorem c5_counterexample :
    envRevertFail.hashExists blkA.body.merkle_hash blkA.body.block_number = true ∧
    onSynchronizing pDefault cSyncB envRevertFail =
      some ({ cSyncB with state := CState.RESET },
            [Event.revertToHash mA 1 false]) := by
  refine ⟨by decide, by decide⟩

/-- C5 witness: the amended claim instantiated on the successful-revert
path from `blkB` back to ancestor `blkA`. -/
theorem c5_witness :
    onSynchronizing pDefault cSyncB envPathOK =
      some ({ cSyncB with state := CState.PRE_EXEC_BLOCK_VALIDATION,
                          current_block := some blkB },
            [Event.revertToHash blkA.body.merkle_hash blkA.body.block_number true]) :=
  ((c5_sync_common_ancestor pDefault cSyncB envPathOK blkB blkA blkB [blkB, blkA] []
      rfl (by decide) (by decide) rfl (by decide)).2.1) (by decide) (by decide)

/-- C1 (amended): each site that updates `last_executed_block` establishes
the claimed storage correspondence except the POST_EXEC path for a block
whose `previous_hash` is GENESIS_DIGEST, where no Merkle comparison guards
the update.  Concretely: (a) RELOAD_STATE updates only after
`RevertToHash(current.merkle_hash, current.block_number)` returned true;
(b) POST_EXEC updates only on the success path, and when the block's
`previous_hash` is not GENESIS_DIGEST the update implies
`storage.CurrentHash() = current.merkle_hash`; (c) TRANSMIT_BLOCK updates
only when `AddBlock` returned ADDED; (d) the transmitted candidate got its
`merkle_hash` from `storage.CurrentHash()` when WAIT_FOR_NEW_BLOCK_EXECUTION
observed IDLE and committed; (e) PROOF_SEARCH preserves that `merkle_hash`. -/
theorem c1_last_executed_update_guarded :
    (∀ (P : Params) (c : Coord) (e : Env) (c2 : Coord) (evs : List Event),
        onReloadState P c e = some (c2, evs) →
        c2.last_executed_block ≠ c.last_executed_block →
        ∃ cb, ensureCurrent c e = some cb ∧ c2.last_executed_block = cb.body.hash ∧
          e.revertToHash cb.body.merkle_hash cb.body.block_number = true) ∧
    (∀ (P : Params) (c : Coord) (e : Env) (c2 : Coord) (evs : List Event) (cb : Block),
        onPostExecBlockValidation P c e = some (c2, evs) →
        c.current_block = some cb →
        c2.last_executed_block ≠ c.last_executed_block →
        c2.last_executed_block = cb.body.hash ∧
          (cb.body.previous_hash ≠ GENESIS_DIGEST → e.currentHash = cb.body.merkle_hash)) ∧
    (∀ (P : Params) (c : Coord) (e : Env) (c2 : Coord) (evs : List Event) (nb : Block),
        onTransmitBlock P c e = some (c2, evs) →
        c.next_block = some nb →
        c2.last_executed_block ≠ c.last_executed_block →
        c2.last_executed_block = nb.body.hash ∧
          e.addBlock nb = Except.ok BlockStatus.ADDED) ∧
    (∀ (P : Params) (c : Coord) (e : Env) (c2 : Coord) (evs : List Event) (nb : Block),
        onWaitForNewBlockExecution P c e = some (c2, evs) →
        c.next_block = some nb →
        c2.state = CState.PROOF_SEARCH →
        ∃ nb2, c2.next_block = some nb2 ∧ nb2.body.merkle_hash = e.currentHash) ∧
    (∀ (P : Params) (c : Coord) (e : Env) (c2 : Coord) (evs : List Event) (nb : Block),
        onProofSearch P c e = some (c2, evs) →
        c.next_block = some nb →
        ∃ nb2, c2.next_block = some nb2 ∧ nb2.body.merkle_hash = nb.body.merkle_hash) := by
  refine ⟨?_, ?_, ?_, ?_, ?_⟩
  · intro P c e c2 evs hx hch
    cases hens : ensureCurrent c e with
    | none => simp [onReloadState, hens] at hx
    | some cb =>
      simp only [onReloadState, hens] at hx
      split at hx
      · split at hx
        · rename_i hrv
          simp only [Option.some.injEq, Prod.mk.injEq] at hx
          obtain ⟨rfl, rfl⟩ := hx
          exact ⟨cb, rfl, rfl, hrv⟩
        · simp only [Option.some.injEq, Prod.mk.injEq] at hx
          obtain ⟨rfl, rfl⟩ := hx
          exact absurd rfl hch
      · simp only [Option.some.injEq, Prod.mk.injEq] at hx
        obtain ⟨rfl, rfl⟩ := hx
        exact absurd rfl hch
  · intro P c e c2 evs cb hx hcb hch
    simp only [onPostExecBlockValidation, hcb] at hx
    split at hx
    · simp only [Option.some.injEq, Prod.mk.injEq] at hx
      obtain ⟨rfl, rfl⟩ := hx
      exact absurd rfl hch
    · rename_i hcond
      push_neg at hcond
      simp only [Option.some.injEq, Prod.mk.injEq] at hx
      obtain ⟨rfl, rfl⟩ := hx
      exact ⟨rfl, fun hg => hcond hg.symm⟩
  · intro P c e c2 evs nb hx hnb hch
    simp only [onTransmitBlock, hnb] at hx
    split at hx
    · simp only [Option.some.injEq, Prod.mk.injEq] at hx
      obtain ⟨rfl, rfl⟩ := hx
      exact absurd rfl hch
    · rename_i st hab
      split at hx
      · rename_i hst
        simp only [Option.some.injEq, Prod.mk.injEq] at hx
        obtain ⟨rfl, rfl⟩ := hx
        exact ⟨rfl, hst ▸ hab⟩
      · simp only [Option.some.injEq, Prod.mk.injEq] at hx
        obtain ⟨rfl, rfl⟩ := hx
        exact absurd rfl hch
  · intro P c e c2 evs nb hx hnb hst
    simp only [onWaitForNewBlockExecution] at hx
    split at hx
    · rw [hnb] at hx
      simp only [Option.some.injEq, Prod.mk.injEq] at hx
      obtain ⟨rfl, rfl⟩ := hx
      exact ⟨_, rfl, rfl⟩
    · rw [hnb] at hx
      simp only [Option.some.injEq, Prod.mk.injEq] at hx
      obtain ⟨rfl, rfl⟩ := hx
      simp at hst
    · simp only [Option.some.injEq, Prod.mk.injEq] at hx
      obtain ⟨rfl, rfl⟩ := hx
      simp at hst
    · simp only [Option.some.injEq, Prod.mk.injEq] at hx
      obtain ⟨rfl, rfl⟩ := hx
      simp at hst
  · intro P c e c2 evs nb hx hnb
    simp only [onProofSearch, hnb] at hx
    split at hx
    · simp only [Option.some.injEq, Prod.mk.injEq] at hx
      obtain ⟨rfl, rfl⟩ := hx
      exact ⟨nb, by simp [hnb], rfl⟩
    · simp only [Option.some.injEq, Prod.mk.injEq] at hx
      obtain ⟨rfl, rfl⟩ := hx
      exact ⟨_, rfl, rfl⟩

/-- C1 counterexample: after POST_EXEC on the genesis-child `blkA`,
`last_executed_block` holds `blkA`'s digest while storage's current Merkle
hash `mB` differs from `blkA`'s declared `merkle_hash` `mA`, violating the
claimed invariant on the genesis-child POST_EXEC path. -/
theorem c1_counterexample :
    (onPostExecBlockValidation pDefault cPostA envMerkleMismatch).map
        (fun r => r.1.last_executed_block) = some blkA.body.hash ∧
    envMerkleMismatch.currentHash ≠ blkA.body.merkle_hash ∧
    blkA.body.hash ≠ GENESIS_DIGEST := by
  refine ⟨by decide, by decide, by decide⟩

/-- C1 witness: part (b) of the amended claim instantiated on the
non-genesis block `blkB` whose declared Merkle root matches storage. -/
theorem c1_witness :
    cPostBRes.last_executed_block = blkB.body.hash ∧
    (blkB.body.previous_hash ≠ GENESIS_DIGEST →
      envMatchB.currentHash = blkB.body.merkle_hash) :=
  c1_last_executed_update_guarded.2.1 pDefault cPostB envMatchB cPostBRes
    [Event.commit 2] blkB (by decide) rfl (by decide)

/-- Membership in the `unordered_set` insertion. -/
theorem mem_txInsert (s : List Digest) (h a : Digest) :
    a ∈ txInsert s h ↔ a ∈ s ∨ a = h := by
  unfold txInsert
  split
  · rename_i hmem
    constructor
    · exact Or.inl
    · rintro (h1 | rfl)
      exacts [h1, hmem]
  · simp

/-- Membership after inserting one slice's transaction hashes. -/
theorem mem_foldl_slice (l : List TransactionLayout) (acc : List Digest) (a : Digest) :
    a ∈ l.foldl (fun acc tx => txInsert acc tx.transaction_hash) acc ↔
      a ∈ acc ∨ ∃ tx ∈ l, tx.transaction_hash = a := by
  induction l generalizing acc with
  | nil => simp
  | cons t ts ih =>
    simp only [List.foldl_cons, ih, mem_txInsert, List.mem_cons]
    constructor
    · rintro (⟨h1 | rfl⟩ | ⟨tx, htx, rfl⟩)
      · exact Or.inl h1
      · exact Or.inr ⟨t, Or.inl rfl, rfl⟩
      · exact Or.inr ⟨tx, Or.inr htx, rfl⟩
    · rintro (h1 | ⟨tx, htx | htx, rfl⟩)
      · exact Or.inl (Or.inl h1)
      · exact Or.inl (Or.inr (by rw [htx]))
      · exact Or.inr ⟨tx, htx, rfl⟩

/-- Membership after collecting every slice. -/
theorem mem_foldl_slices (ls : List Slice) (acc : List Digest) (a : Digest) :
    a ∈ ls.foldl (fun acc s => s.foldl (fun acc tx => txInsert acc tx.transaction_hash) acc) acc ↔
      a ∈ acc ∨ ∃ s ∈ ls, ∃ tx ∈ s, tx.transaction_hash = a := by
  induction ls generalizing acc with
  | nil => simp
  | cons s ss ih =>
    simp only [List.foldl_cons, ih, mem_foldl_slice, List.mem_cons]
    constructor
    · rintro (⟨h1 | ⟨tx, htx, rfl⟩⟩ | ⟨s2, hs2, tx, htx, rfl⟩)
      · exact Or.inl h1
      · exact Or.inr ⟨s, Or.inl rfl, tx, htx, rfl⟩
      · exact Or.inr ⟨s2, Or.inr hs2, tx, htx, rfl⟩
    · rintro (h1 | ⟨s2, hs2 | hs2, tx, htx, rfl⟩)
      · exact Or.inl (Or.inl h1)
      · exact Or.inl (Or.inr ⟨tx, hs2 ▸ htx, rfl⟩)
      · exact Or.inr ⟨s2, hs2, tx, htx, rfl⟩

/-- The set populated by OnWaitForTransactions holds exactly the
transaction hashes of every slice of the block. -/
theorem mem_collectTxs (b : Block) (a : Digest) :
    a ∈ collectTxs b ↔ a ∈ blockTxs b := by
  simp only [collectTxs, blockTxs, mem_foldl_slices, List.not_mem_nil, false_or,
    List.mem_flatten, List.mem_map]
  constructor
  · rintro ⟨s, hs, tx, htx, rfl⟩
    exact ⟨s.map (fun tx => tx.transaction_hash), ⟨s, hs, rfl⟩, List.mem_map.mpr ⟨tx, htx, rfl⟩⟩
  · rintro ⟨l, ⟨s, hs, rfl⟩, hmem⟩
    obtain ⟨tx, htx, rfl⟩ := List.mem_map.mp hmem
    exact ⟨s, hs, tx, htx, rfl⟩

/-- C7: on every WAIT_FOR_TRANSACTIONS tick, an unset `pending_txs` is
populated with every transaction hash of every slice of the current block;
entries the storage unit already holds are removed (so a cached set only
shrinks); an empty result releases the set and moves to
SCHEDULE_BLOCK_EXECUTION, a non-empty one is cached with a 200 ms delay
hint and the state remains WAIT_FOR_TRANSACTIONS. -/
theorem c7_wait_for_transactions (P : Params) (c : Coord) (e : Env) (cb : Block)
    (hcb : c.current_block = some cb) :
    (c.pending_txs = none → ∀ a, a ∈ pendingBase c cb ↔ a ∈ blockTxs cb) ∧
    (∀ a, a ∈ remainingTxs c e cb → e.hasTransaction a = false) ∧
    (∀ s, c.pending_txs = some s → ∀ a, a ∈ remainingTxs c e cb → a ∈ s) ∧
    (remainingTxs c e cb = [] →
      onWaitForTransactions P c e =
        some ({ c with pending_txs := none,
                       state := CState.SCHEDULE_BLOCK_EXECUTION }, [])) ∧
    (remainingTxs c e cb ≠ [] →
      onWaitForTransactions P c e =
        some ({ c with pending_txs := some (remainingTxs c e cb),
                       state := CState.WAIT_FOR_TRANSACTIONS }, [Event.delay 200])) := by
  refine ⟨?_, ?_, ?_, ?_, ?_⟩
  · intro hnone a
    simp only [pendingBase, hnone]
    exact mem_collectTxs cb a
  · intro a ha
    have := (List.mem_filter.mp ha).2
    simpa using this
  · intro s hs a ha
    have := (List.mem_filter.mp ha).1
    simpa [pendingBase, hs] using this
  · intro hempty
    simp only [onWaitForTransactions, hcb]
    rw [if_pos]
    have : remainingTxs c e cb = [] := hempty
    simpa [remainingTxs, pendingBase] using congrArg List.isEmpty this
  · intro hne
    simp only [onWaitForTransactions, hcb]
    rw [if_neg]
    · rfl
    · intro hcontra
      exact hne (by simpa [remainingTxs, pendingBase] using List.isEmpty_iff.mp hcontra)

/-- C7 witness: the claim instantiated on a cached two-element pending set
of which storage already holds one digest. -/
theorem c7_witness :
    remainingTxs cWaitTx envHalfTx blkA = [dByte 22] ∧
    onWaitForTransactions pDefault cWaitTx envHalfTx =
      some ({ cWaitTx with pending_txs := some (remainingTxs cWaitTx envHalfTx blkA),
                           state := CState.WAIT_FOR_TRANSACTIONS }, [Event.delay 200]) :=
  ⟨by decide,
   (c7_wait_for_transactions pDefault cWaitTx envHalfTx blkA rfl).2.2.2.2 (by decide)⟩

/-- C9: in TRANSMIT_BLOCK the three effects (tx statuses marked EXECUTED,
`last_executed_block` set to the candidate's hash, `block_sink.OnBlock`)
occur exactly when `chain.AddBlock` returned ADDED; on any other result or
a thrown exception none of them occur; the next state is RESET in every
case. -/
theorem c9_transmit_effects_iff_added (P : Params) (c : Coord) (e : Env) (nb : Block)
    (hnb : c.next_block = some nb) :
    (e.addBlock nb = Except.ok BlockStatus.ADDED →
      onTransmitBlock P c e =
        some ({ c with state := CState.RESET, last_executed_block := nb.body.hash },
              (blockTxs nb).map Event.txExecuted ++ [Event.onBlock nb])) ∧
    (e.addBlock nb ≠ Except.ok BlockStatus.ADDED →
      onTransmitBlock P c e = some ({ c with state := CState.RESET }, [])) := by
  constructor
  · intro hadd
    simp [onTransmitBlock, hnb, hadd]
  · intro hadd
    simp only [onTransmitBlock, hnb]
    cases hab : e.addBlock nb with
    | error u => simp
    | ok st =>
      have hst : st ≠ BlockStatus.ADDED := by
        intro h
        exact hadd (h ▸ hab)
      simp [hst]

/-- C9 witness: the claim instantiated on a snapshot where the chain
rejects the candidate as INVALID: no effects, next state RESET. -/
theorem c9_witness :
    onTransmitBlock pDefault cTransmitB envAddInvalid =
      some ({ cTransmitB with state := CState.RESET }, []) :=
  (c9_transmit_effects_iff_added pDefault cTransmitB envAddInvalid blkB rfl).2 (by decide)

/-- C6 (amended): when `GetPathToCommonAncestor` succeeds in SYNCHRONIZING
with a path of at least two blocks, the handler's reads of the last and
penultimate elements are in bounds and the tick is defined; but the §6
contract only guarantees a non-empty path, and for a conforming singleton
path (the current block is itself the common ancestor) the unconditional
penultimate read is past the end — undefined behaviour guarded only by a
debug assert. -/
theorem c6_path_reads_need_two_blocks (P : Params) (c : Coord) (e : Env)
    (cb : Block) (blocks : List Block)
    (hcb : c.current_block = some cb)
    (hlpb : GENESIS_DIGEST ≠ e.lastProcessedBlock)
    (hne : cb.body.hash ≠ e.lastProcessedBlock)
    (hpath : e.pathToCommonAncestor cb.body.hash e.lastProcessedBlock = some blocks) :
    (2 ≤ blocks.length → (onSynchronizing P c e).isSome = true) ∧
    (blocks.length = 1 → onSynchronizing P c e = none) := by
  have hens : ensureCurrent c e = some cb := by simp [ensureCurrent, hcb]
  constructor
  · intro hlen
    obtain ⟨a, b, rest, hrev⟩ : ∃ a b rest, blocks.reverse = a :: b :: rest := by
      cases hr : blocks.reverse with
      | nil =>
        have h0 := congrArg List.length hr
        rw [List.length_reverse] at h0
        simp only [List.length_nil] at h0
        exact absurd hlen (by omega)
      | cons a t =>
        cases t with
        | nil =>
          have h0 := congrArg List.length hr
          rw [List.length_reverse] at h0
          simp only [List.length_cons, List.length_nil] at h0
          exact absurd hlen (by omega)
        | cons b rest => exact ⟨a, b, rest, rfl⟩
    simp only [onSynchronizing, hens]
    rw [if_neg hlpb, if_neg hne, hpath]
    simp only [hrev]
    split
    · simp
    · split <;> simp
  · intro hlen
    obtain ⟨a, hrev⟩ : ∃ a, blocks.reverse = [a] := by
      cases hr : blocks.reverse with
      | nil =>
        have h0 := congrArg List.length hr
        rw [List.length_reverse] at h0
        simp only [List.length_nil] at h0
        exact absurd hlen (by omega)
      | cons a t =>
        cases t with
        | nil => exact ⟨a, rfl⟩
        | cons b rest =>
          have h0 := congrArg List.length hr
          rw [List.length_reverse] at h0
          simp only [List.length_cons] at h0
          exact absurd hlen (by omega)
    simp only [onSynchronizing, hens]
    rw [if_neg hlpb, if_neg hne, hpath]
    simp only [hrev]

/-- C6 counterexample: the chain `gChainAB` holds the genesis child `blkA`
and its descendant `blkB`; the last processed block is `blkB` while the
current block is `blkA`, so `blkA` is itself the common ancestor and the
singleton path `[blkA]` satisfies the §6 contract — yet the handler's
unconditional penultimate read is out of bounds (modelled as `none`),
refuting the claim that a successful lookup always yields two blocks with
in-bounds reads. -/
theorem c6_counterexample :
    PathContract gChainAB dA dB [blkA] ∧
    envSingletonPath.pathToCommonAncestor dA dB = some [blkA] ∧
    envSingletonPath.lastProcessedBlock ≠ GENESIS_DIGEST ∧
    onSynchronizing pDefault cSyncA envSingletonPath = none := by
  refine ⟨⟨by decide, by decide, blkA, by decide, ReachesBack.refl dA, ?_⟩,
          rfl, by decide, by decide⟩
  exact ReachesBack.step blkB (by decide) (ReachesBack.refl dA)

/-- C6 witness: the amended claim instantiated on the two-block path
`[blkB, blkA]`, for which the handler tick is defined. -/
theorem c6_witness :
    (onSynchronizing pDefault cSyncB envPathOK).isSome = true :=
  (c6_path_reads_need_two_blocks pDefault cSyncB envPathOK blkB [blkB, blkA]
    rfl (by decide) (by decide) rfl).1 (by decide)

/-- C4: over every defined tick from any state, `chain.RemoveBlock` is
invoked only with the digest of the current block, and only from
PRE_EXEC_BLOCK_VALIDATION after one of the documented shape/continuity
checks failed, or from POST_EXEC_BLOCK_VALIDATION after the Merkle
comparison failed; no other handler emits a `RemoveBlock` call. -/
theorem c4_remove_block_only_on_validation_failure (P : Params) (c : Coord) (e : Env)
    (c2 : Coord) (evs : List Event) (h : Digest)
    (htick : tick P c e = some (c2, evs))
    (hmem : Event.removeBlock h ∈ evs) :
    ∃ cb, c.current_block = some cb ∧ h = cb.body.hash ∧
      ((c.state = CState.PRE_EXEC_BLOCK_VALIDATION ∧ preExecRemovalCause P e cb) ∨
       (c.state = CState.POST_EXEC_BLOCK_VALIDATION ∧ postExecRemovalCause e cb)) := by
  cases hs : c.state <;> simp only [tick, hs] at htick
  case PRE_EXEC_BLOCK_VALIDATION =>
    cases hcb : c.current_block with
    | none => simp [onPreExecBlockValidation, hcb] at htick
    | some cb =>
      simp only [onPreExecBlockValidation, hcb] at htick
      refine ⟨cb, rfl, ?_⟩
      by_cases hgen : cb.body.previous_hash = GENESIS_DIGEST
      · rw [if_pos hgen] at htick
        by_cases hlen : cb.body.previous_hash.length ≠ 32
        · rw [if_pos hlen] at htick
          simp only [Option.some.injEq, Prod.mk.injEq] at htick
          obtain ⟨rfl, rfl⟩ := htick
          exact ⟨by simpa using hmem, Or.inl ⟨rfl, Or.inr hlen⟩⟩
        · rw [if_neg hlen] at htick
          simp only [Option.some.injEq, Prod.mk.injEq] at htick
          obtain ⟨rfl, rfl⟩ := htick
          simp at hmem
      · rw [if_neg hgen] at htick
        cases hpb : e.getBlock cb.body.previous_hash with
        | none =>
          simp only [hpb, Option.some.injEq, Prod.mk.injEq] at htick
          obtain ⟨rfl, rfl⟩ := htick
          exact ⟨by simpa using hmem, Or.inl ⟨rfl, Or.inl ⟨hgen, Or.inl hpb⟩⟩⟩
        | some previous =>
          simp only [hpb] at htick
          by_cases hnum : previous.body.block_number + 1 ≠ cb.body.block_number
          · rw [if_pos hnum] at htick
            simp only [Option.some.injEq, Prod.mk.injEq] at htick
            obtain ⟨rfl, rfl⟩ := htick
            exact ⟨by simpa using hmem,
                   Or.inl ⟨rfl, Or.inl ⟨hgen, Or.inr ⟨previous, hpb, Or.inl hnum⟩⟩⟩⟩
          · rw [if_neg hnum] at htick
            by_cases hminer : cb.body.miner.length ≠ 64
            · rw [if_pos hminer] at htick
              simp only [Option.some.injEq, Prod.mk.injEq] at htick
              obtain ⟨rfl, rfl⟩ := htick
              exact ⟨by simpa using hmem,
                     Or.inl ⟨rfl, Or.inl ⟨hgen,
                       Or.inr ⟨previous, hpb, Or.inr (Or.inl hminer)⟩⟩⟩⟩
            · rw [if_neg hminer] at htick
              by_cases hlanes : P.num_lanes ≠ 1 <<< cb.body.log2_num_lanes
              · rw [if_pos hlanes] at htick
                simp only [Option.some.injEq, Prod.mk.injEq] at htick
                obtain ⟨rfl, rfl⟩ := htick
                exact ⟨by simpa using hmem,
                       Or.inl ⟨rfl, Or.inl ⟨hgen,
                         Or.inr ⟨previous, hpb, Or.inr (Or.inr (Or.inl hlanes))⟩⟩⟩⟩
              · rw [if_neg hlanes] at htick
                by_cases hsl : P.num_slices ≠ cb.body.slices.length
                · rw [if_pos hsl] at htick
                  simp only [Option.some.injEq, Prod.mk.injEq] at htick
                  obtain ⟨rfl, rfl⟩ := htick
                  exact ⟨by simpa using hmem,
                         Or.inl ⟨rfl, Or.inl ⟨hgen,
                           Or.inr ⟨previous, hpb, Or.inr (Or.inr (Or.inr hsl))⟩⟩⟩⟩
                · rw [if_neg hsl] at htick
                  by_cases hlen : cb.body.previous_hash.length ≠ 32
                  · rw [if_pos hlen] at htick
                    simp only [Option.some.injEq, Prod.mk.injEq] at htick
                    obtain ⟨rfl, rfl⟩ := htick
                    exact ⟨by simpa using hmem, Or.inl ⟨rfl, Or.inr hlen⟩⟩
                  · rw [if_neg hlen] at htick
                    simp only [Option.some.injEq, Prod.mk.injEq] at htick
                    obtain ⟨rfl, rfl⟩ := htick
                    simp at hmem
  case POST_EXEC_BLOCK_VALIDATION =>
    cases hcb : c.current_block with
    | none => simp [onPostExecBlockValidation, hcb] at htick
    | some cb =>
      simp only [onPostExecBlockValidation, hcb] at htick
      split at htick
      · rename_i hcond
        simp only [Option.some.injEq, Prod.mk.injEq] at htick
        obtain ⟨rfl, rfl⟩ := htick
        refine ⟨cb, rfl, ?_, Or.inr ⟨rfl, hcond⟩⟩
        rcases List.mem_append.mp hmem with hm | hm
        · exfalso
          cases hpb : e.getBlock cb.body.previous_hash with
          | none => simp [hpb] at hm
          | some pb =>
            simp only [hpb] at hm
            split at hm <;> simp at hm
        · simpa using hm
      · simp only [Option.some.injEq, Prod.mk.injEq] at htick
        obtain ⟨rfl, rfl⟩ := htick
        exfalso
        simp at hmem
  all_goals
    exfalso
    first
      | (simp only [onReloadState] at htick
         repeat' split at htick
         all_goals first
           | exact Option.noConfusion htick
           | (simp only [Option.some.injEq, Prod.mk.injEq] at htick;
              obtain ⟨rfl, rfl⟩ := htick; simp at hmem))
      | (simp only [onSynchronizing] at htick
         repeat' split at htick
         all_goals first
           | exact Option.noConfusion htick
           | (simp only [Option.some.injEq, Prod.mk.injEq] at htick;
              obtain ⟨rfl, rfl⟩ := htick; simp at hmem))
      | (simp only [onSynchronized] at htick
         repeat' split at htick
         all_goals first
           | exact Option.noConfusion htick
           | (simp only [Option.some.injEq, Prod.mk.injEq] at htick;
              obtain ⟨rfl, rfl⟩ := htick; simp at hmem))
      | (simp only [onWaitForTransactions] at htick
         repeat' split at htick
         all_goals first
           | exact Option.noConfusion htick
           | (simp only [Option.some.injEq, Prod.mk.injEq] at htick;
              obtain ⟨rfl, rfl⟩ := htick; simp at hmem))
      | (simp only [onScheduleBlockExecution] at htick
         repeat' split at htick
         all_goals first
           | exact Option.noConfusion htick
           | (simp only [Option.some.injEq, Prod.mk.injEq] at htick;
              obtain ⟨rfl, rfl⟩ := htick; simp at hmem))
      | (simp only [onWaitForExecution] at htick
         repeat' split at htick
         all_goals first
           | exact Option.noConfusion htick
           | (simp only [Option.some.injEq, Prod.mk.injEq] at htick;
              obtain ⟨rfl, rfl⟩ := htick; simp at hmem))
      | (simp only [onPackNewBlock] at htick
         repeat' split at htick
         all_goals first
           | exact Option.noConfusion htick
           | (simp only [Option.some.injEq, Prod.mk.injEq] at htick;
              obtain ⟨rfl, rfl⟩ := htick; simp at hmem))
      | (simp only [onExecuteNewBlock] at htick
         repeat' split at htick
         all_goals first
           | exact Option.noConfusion htick
           | (simp only [Option.some.injEq, Prod.mk.injEq] at htick;
              obtain ⟨rfl, rfl⟩ := htick; simp at hmem))
      | (simp only [onWaitForNewBlockExecution] at htick
         repeat' split at htick
         all_goals first
           | exact Option.noConfusion htick
           | (simp only [Option.some.injEq, Prod.mk.injEq] at htick;
              obtain ⟨rfl, rfl⟩ := htick; simp at hmem))
      | (simp only [onProofSearch] at htick
         repeat' split at htick
         all_goals first
           | exact Option.noConfusion htick
           | (simp only [Option.some.injEq, Prod.mk.injEq] at htick;
              obtain ⟨rfl, rfl⟩ := htick; simp at hmem))
      | (simp only [onTransmitBlock] at htick
         repeat' split at htick
         all_goals first
           | exact Option.noConfusion htick
           | (simp only [Option.some.injEq, Prod.mk.injEq] at htick;
              obtain ⟨rfl, rfl⟩ := htick; simp at hmem))
      | (simp only [onReset] at htick
         all_goals first
           | exact Option.noConfusion htick
           | (simp only [Option.some.injEq, Prod.mk.injEq] at htick;
              obtain ⟨rfl, rfl⟩ := htick; simp at hmem))

/-- C4 witness: the claim instantiated on a PRE_EXEC tick removing
`blkBadMiner` (10-byte miner identity) from the chain. -/
theorem c4_witness :
    ∃ cb, cPreBadMiner.current_block = some cb ∧
      blkBadMiner.body.hash = cb.body.hash ∧
      ((cPreBadMiner.state = CState.PRE_EXEC_BLOCK_VALIDATION ∧
          preExecRemovalCause pDefault envParentA cb) ∨
       (cPreBadMiner.state = CState.POST_EXEC_BLOCK_VALIDATION ∧
          postExecRemovalCause envParentA cb)) :=
  c4_remove_block_only_on_validation_failure pDefault cPreBadMiner envParentA
    { cPreBadMiner with state := CState.RESET }
    [Event.removeBlock blkBadMiner.body.hash] blkBadMiner.body.hash
    (by decide) (by decide)

/-- Every defined tick preserves the block-reference invariant: each
handler either sets the reference its successor states dereference, keeps
it untouched, or moves to a state that does not need it. -/
theorem tick_preserves_blockRefsInv (P : Params) (c : Coord) (e : Env)
    (c2 : Coord) (evs : List Event)
    (htick : tick P c e = some (c2, evs)) (hinv : BlockRefsInv c) :
    BlockRefsInv c2 := by
  obtain ⟨hcur, hnext⟩ := hinv
  cases hs : c.state <;> simp only [tick, hs] at htick <;>
    simp only [onReloadState, onSynchronizing, onSynchronized,
      onPreExecBlockValidation, onWaitForTransactions, onScheduleBlockExecution,
      onWaitForExecution, onPostExecBlockValidation, onPackNewBlock,
      onExecuteNewBlock, onWaitForNewBlockExecution, onProofSearch,
      onTransmitBlock, onReset] at htick <;>
    (repeat' split at htick) <;>
    first
      | exact Option.noConfusion htick
      | (simp only [Option.some.injEq, Prod.mk.injEq] at htick;
         obtain ⟨rfl, rfl⟩ := htick;
         refine ⟨?_, ?_⟩ <;> intro hst <;> simp_all)

/-- Every configuration reachable from the initial one under environments
whose heaviest-block lookup succeeds satisfies the block-reference
invariant. -/
theorem reach_blockRefsInv (P : Params) (c : Coord)
    (h : Reach P initCoord c) : BlockRefsInv c := by
  induction h with
  | refl => refine ⟨fun hst => ?_, fun hst => ?_⟩ <;> simp [initCoord] at hst
  | step hreach hgood htick ih =>
    exact tick_preserves_blockRefsInv _ _ _ _ _ htick ih

/-- C10: in every execution starting from RELOAD_STATE under the
precondition that `chain.GetHeaviestBlock` always returns a block,
`current_block` is set whenever the handlers for SYNCHRONIZED,
PRE_EXEC_BLOCK_VALIDATION, WAIT_FOR_TRANSACTIONS, WAIT_FOR_EXECUTION or
POST_EXEC_BLOCK_VALIDATION run, and `next_block` is set whenever the
handlers for PACK_NEW_BLOCK, EXECUTE_NEW_BLOCK,
WAIT_FOR_NEW_BLOCK_EXECUTION, PROOF_SEARCH or TRANSMIT_BLOCK run, so the
unchecked dereferences of these references in those handlers are safe. -/
theorem c10_block_refs_set_when_needed (P : Params) (c : Coord)
    (h : Reach P initCoord c) :
    ((c.state = CState.SYNCHRONIZED ∨ c.state = CState.PRE_EXEC_BLOCK_VALIDATION ∨
      c.state = CState.WAIT_FOR_TRANSACTIONS ∨ c.state = CState.WAIT_FOR_EXECUTION ∨
      c.state = CState.POST_EXEC_BLOCK_VALIDATION) → c.current_block.isSome = true) ∧
    ((c.state = CState.PACK_NEW_BLOCK ∨ c.state = CState.EXECUTE_NEW_BLOCK ∨
      c.state = CState.WAIT_FOR_NEW_BLOCK_EXECUTION ∨ c.state = CState.PROOF_SEARCH ∨
      c.state = CState.TRANSMIT_BLOCK) → c.next_block.isSome = true) := by
  obtain ⟨h1, h2⟩ := reach_blockRefsInv P c h
  exact ⟨fun hst => h1 (by tauto), h2⟩

/-- C10 witness: the claim instantiated on the three-tick execution
RELOAD_STATE → RESET → SYNCHRONIZING → PRE_EXEC_BLOCK_VALIDATION, at whose
end `current_block` is indeed set. -/
theorem c10_witness :
    ((cW3.state = CState.SYNCHRONIZED ∨ cW3.state = CState.PRE_EXEC_BLOCK_VALIDATION ∨
      cW3.state = CState.WAIT_FOR_TRANSACTIONS ∨ cW3.state = CState.WAIT_FOR_EXECUTION ∨
      cW3.state = CState.POST_EXEC_BLOCK_VALIDATION) → cW3.current_block.isSome = true) ∧
    ((cW3.state = CState.PACK_NEW_BLOCK ∨ cW3.state = CState.EXECUTE_NEW_BLOCK ∨
      cW3.state = CState.WAIT_FOR_NEW_BLOCK_EXECUTION ∨ cW3.state = CState.PROOF_SEARCH ∨
      cW3.state = CState.TRANSMIT_BLOCK) → cW3.next_block.isSome = true) :=
  c10_block_refs_set_when_needed pDefault cW3
    (@Reach.step pDefault initCoord cW2 cW3 envBase []
      (@Reach.step pDefault initCoord cW1 cW2 envBase []
        (@Reach.step pDefault initCoord initCoord cW1 envBase []
          Reach.refl rfl (by decide))
        rfl (by decide))
      rfl (by decide))

end Coordinator
